import Mathlib

/-
Verification of the conversation-history manager
(src/utils/conversation_manager.py).

The module is embedded shallowly: Python strings are lists of characters,
the `ConversationManager` object is a record, and each mutating method is a
function from the pre-state to the post-state (methods that also return a
value yield a pair).  Python's negative-index slices `l[:-k]` and `l[-k:]`
are modelled by dedicated functions, including the `k = 0` corner case in
which `l[-0:]` is the whole list.  Messages carry the langchain `name`
field, which is present (with value `None`) on every message even when the
caller never set it; an f-string renders that `None` as the text "None".
Message payloads are modelled as strings (the claims under study only
concern string payloads).
-/

namespace ConvMgr

/-- Characters of a Python string literal. -/
def pys (s : String) : List Char := s.data

/-- `startsWith p s` holds when `p` is an initial segment of `s`. -/
def startsWith : List Char → List Char → Bool
  | [], _ => true
  | _ :: _, [] => false
  | a :: p, b :: s => a == b && startsWith p s

/-- `endsWith p s` holds when `p` is a final segment of `s`. -/
def endsWith (p s : List Char) : Bool :=
  startsWith p.reverse s.reverse

/-- Python's `p in s` substring test. -/
def isSub (p : List Char) : List Char → Bool
  | [] => startsWith p []
  | c :: s => startsWith p (c :: s) || isSub p s

/-- Python slice `l[-k:]`: the last `k` elements, except that `l[-0:]`
is all of `l`. -/
def pySliceLast (k : Nat) (l : List α) : List α :=
  if k = 0 then l else l.drop (l.length - k)

/-- Python slice `l[:-k]`: all but the last `k` elements, except that
`l[:-0]` is empty. -/
def pySliceInit (k : Nat) (l : List α) : List α :=
  if k = 0 then [] else l.take (l.length - k)

/-- Message roles: the three langchain classes dispatched on by the module
(`SystemMessage`, `HumanMessage`, `AIMessage`) plus `other` for any other
`BaseMessage` subclass (tool, function, chat messages). -/
inductive Role where
  | system
  | human
  | ai
  | other
deriving DecidableEq, Repr

/-- A langchain message: role tag, string payload, and the `name` field
(`Optional[str]`, present on every message, `None` by default). -/
structure Msg where
  role : Role
  content : List Char
  name : Option (List Char)
deriving DecidableEq, Repr

/-- Python truthiness of an optional string: `None` and `""` are falsy. -/
def truthyOpt : Option (List Char) → Bool
  | none => false
  | some s => !s.isEmpty

/-- The literal truncation marker from `truncate_content`. -/
def truncationNotice : List Char := pys "\n...Content truncated...\n"

/-- The literal marker from `_create_summary_for_content`. -/
def summarizedNotice : List Char := pys "\n\n...Content summarized...\n\n"

/-- `truncate_content(content, max_length)`: unchanged when short enough,
otherwise first half, marker, last half (halves by integer division,
last-half slice with Python `content[-half:]` semantics). -/
def truncate_content (content : List Char) (max_length : Nat) : List Char :=
  if content.length ≤ max_length then content
  else
    content.take (max_length / 2) ++ truncationNotice ++
      pySliceLast (max_length / 2) content

/-- `ConversationManager.__init__` state: the three limits plus the
message buffer and the optional running summary. -/
structure ConversationManager where
  max_messages : Nat
  max_content_length : Nat
  preserve_recent : Nat
  messages : List Msg
  summary : Option (List Char)
deriving DecidableEq, Repr

/-- `ConversationManager._create_summary_for_content`: content of length
at most 500 is returned unchanged; longer content becomes the first 200
characters, the summarized marker, and the last 200 characters.  The
method reads no instance attribute, so it is a function of the content
alone. -/
def create_summary_for_content (content : List Char) : List Char :=
  if content.length ≤ 500 then content
  else content.take 200 ++ summarizedNotice ++ pySliceLast 200 content

/-- The fold's per-message 200-character clip:
`content[:200] + "..." if len(content) > 200 else content`. -/
def clipFold (c : List Char) : List Char :=
  if 200 < c.length then c.take 200 ++ pys "..." else c

/-- The summary line a single folded message contributes, if any: System
messages are skipped, Human messages give a "User: " line, AI messages
give a line headed by `getattr(msg, 'name', 'Assistant')` — which is the
always-present langchain `name` field, rendered as "None" by the f-string
when unset — and any other role falls through the `elif` chain. -/
def lineOf : Msg → Option (List Char)
  | ⟨Role.system, _, _⟩ => none
  | ⟨Role.human, c, _⟩ => some (pys "User: " ++ clipFold c)
  | ⟨Role.ai, c, n⟩ => some (n.getD (pys "None") ++ pys ": " ++ clipFold c)
  | ⟨Role.other, _, _⟩ => none

/-- The lines contributed by a list of folded messages, in order. -/
def summaryLines (l : List Msg) : List (List Char) :=
  l.filterMap lineOf

/-- `"\n".join(parts)`. -/
def joinLines (parts : List (List Char)) : List Char :=
  List.intercalate (pys "\n") parts

/-- `ConversationManager._create_summary`: no-op when the buffer does not
exceed `preserve_recent`; otherwise fold all but the last
`preserve_recent` messages into a freshly built summary (opened by a
"Previous conversation summary: " line when the old summary is truthy)
and keep only the recent messages.  An empty list of parts yields a
`None` summary. -/
def create_summary (st : ConversationManager) : ConversationManager :=
  if st.messages.length ≤ st.preserve_recent then st
  else
    let messages_to_summarize := pySliceInit st.preserve_recent st.messages
    let recent_messages := pySliceLast st.preserve_recent st.messages
    let summary_parts :=
      (if truthyOpt st.summary then
        [pys "Previous conversation summary: " ++ st.summary.getD []]
      else []) ++ summaryLines messages_to_summarize
    { st with
      messages := recent_messages
      summary :=
        if summary_parts.isEmpty then none else some (joinLines summary_parts) }

/-- The ingest step of `add_message`: a payload longer than
`max_content_length` is replaced by `_create_summary_for_content` of it,
rebuilding the message (AI and Human keep their `name`; System is rebuilt
without one; any other class is left untouched by the `isinstance`
chain). -/
def processIncoming (st : ConversationManager) (message : Msg) : Msg :=
  if st.max_content_length < message.content.length then
    let truncated_content := create_summary_for_content message.content
    match message.role with
    | Role.ai => { message with content := truncated_content }
    | Role.human => { message with content := truncated_content }
    | Role.system => ⟨Role.system, truncated_content, none⟩
    | Role.other => message
  else message

/-- `ConversationManager.add_message`: shrink an oversized payload, fold
when the buffer already holds `max_messages` messages, append, and fold
again when the buffer now exceeds `preserve_recent`. -/
def add_message (st : ConversationManager) (message : Msg) :
    ConversationManager :=
  let message := processIncoming st message
  let st1 := if st.max_messages ≤ st.messages.length then create_summary st else st
  let st2 := { st1 with messages := st1.messages ++ [message] }
  if st2.preserve_recent < st2.messages.length then create_summary st2 else st2

/-- `ConversationManager.get_messages`: a copy of the buffer, with a
synthetic System message carrying the summary prepended when
`summary_mode` is set and the summary is truthy.  The method mutates
nothing, so the post-state is the pre-state. -/
def get_messages (st : ConversationManager) (summary_mode : Bool) :
    List Msg × ConversationManager :=
  if !summary_mode || !truthyOpt st.summary then (st.messages, st)
  else
    (⟨Role.system, pys "Conversation Summary:\n" ++ st.summary.getD [], none⟩
      :: st.messages, st)

/-- The record returned by `get_conversation_stats`. -/
structure ConversationStats where
  total_messages : Nat
  has_summary : Bool
  summary_length : Nat
  total_content_length : Nat
  max_messages_threshold : Nat
  preserve_recent_count : Nat
deriving DecidableEq, Repr

/-- `ConversationManager.get_conversation_stats`: a pure read of the
counters (`has_summary` tests `is not None`; `summary_length` uses
truthiness, so a `None` summary reports 0). -/
def get_conversation_stats (st : ConversationManager) :
    ConversationStats × ConversationManager :=
  ({ total_messages := st.messages.length
     has_summary := st.summary.isSome
     summary_length := if truthyOpt st.summary then (st.summary.getD []).length else 0
     total_content_length := (st.messages.map fun m => m.content.length).sum
     max_messages_threshold := st.max_messages
     preserve_recent_count := st.preserve_recent }, st)

/-- Scenario A of the spec: a manager with `max_messages = 3`,
`preserve_recent = 2` (and the default content limit) after adding the
five Human messages "Message 0" … "Message 4" in order. -/
def scenarioAState : ConversationManager :=
  List.foldl add_message ⟨3, 900000, 2, [], none⟩
    [⟨Role.human, pys "Message 0", none⟩,
     ⟨Role.human, pys "Message 1", none⟩,
     ⟨Role.human, pys "Message 2", none⟩,
     ⟨Role.human, pys "Message 3", none⟩,
     ⟨Role.human, pys "Message 4", none⟩]

/- Helper lemmas shared by several claims. -/

-- Membership in a Python `l[-k:]` slice implies membership in `l`.
theorem mem_pySliceLast {α : Type} {x : α} {k : Nat} {l : List α}
    (h : x ∈ pySliceLast k l) : x ∈ l := by
  unfold pySliceLast at h
  split at h
  · exact h
  · exact List.mem_of_mem_drop h

-- The fold keeps every configuration field unchanged.
theorem create_summary_preserve_recent_eq (st : ConversationManager) :
    (create_summary st).preserve_recent = st.preserve_recent := by
  unfold create_summary
  split <;> rfl

theorem create_summary_max_content_length_eq (st : ConversationManager) :
    (create_summary st).max_content_length = st.max_content_length := by
  unfold create_summary
  split <;> rfl

-- After a fold the buffer holds at most `preserve_recent` messages
-- (for a positive `preserve_recent`; `l[-0:]` would keep everything).
theorem create_summary_length_le (st : ConversationManager)
    (hp : 1 ≤ st.preserve_recent) :
    (create_summary st).messages.length ≤ st.preserve_recent := by
  unfold create_summary
  split
  · next h => exact h
  · next h =>
    show (pySliceLast st.preserve_recent st.messages).length ≤ _
    unfold pySliceLast
    rw [if_neg (by omega)]
    rw [List.length_drop]
    omega

-- Every message surviving a fold was already stored before it.
theorem mem_create_summary {x : Msg} {st : ConversationManager}
    (h : x ∈ (create_summary st).messages) : x ∈ st.messages := by
  unfold create_summary at h
  split at h
  · exact h
  · exact mem_pySliceLast h

end ConvMgr

namespace ConvMgr

-- A list starts with itself followed by anything.
theorem startsWith_self_append (p t : List Char) :
    startsWith p (p ++ t) = true := by
  induction p with
  | nil => rfl
  | cons a p ih => simp [startsWith, ih]

-- A list ends with itself preceded by anything.
theorem endsWith_self_append (q r : List Char) :
    endsWith q (r ++ q) = true := by
  unfold endsWith
  rw [List.reverse_append]
  exact startsWith_self_append q.reverse r.reverse

-- The empty pattern occurs in every list.
theorem isSub_nil (t : List Char) : isSub [] t = true := by
  cases t with
  | nil => rfl
  | cons c s => rfl

-- An occurrence survives prepending material.
theorem isSub_append_left (p t s : List Char) (h : isSub p t = true) :
    isSub p (s ++ t) = true := by
  induction s with
  | nil => simpa using h
  | cons c s ih =>
    show (startsWith p (c :: (s ++ t)) || isSub p (s ++ t)) = true
    rw [ih]
    simp

-- An initial match survives appending material.
theorem startsWith_extend (p s t : List Char) (h : startsWith p s = true) :
    startsWith p (s ++ t) = true := by
  induction p generalizing s with
  | nil => rfl
  | cons a p ih =>
    cases s with
    | nil => cases h
    | cons b s =>
      rw [show ((b :: s) ++ t) = b :: (s ++ t) from rfl]
      show (a == b && startsWith p (s ++ t)) = true
      have h' : (a == b && startsWith p s) = true := h
      rw [Bool.and_eq_true] at h' ⊢
      exact ⟨h'.1, ih s h'.2⟩

-- An occurrence survives appending material.
theorem isSub_append_right (p s t : List Char) (h : isSub p s = true) :
    isSub p (s ++ t) = true := by
  induction s with
  | nil =>
    have hp : p = [] := by
      cases p with
      | nil => rfl
      | cons a q => exact absurd h (by simp [isSub, startsWith])
    subst hp
    exact isSub_nil t
  | cons c s ih =>
    show (startsWith p ((c :: s) ++ t) || isSub p (s ++ t)) = true
    have h' : (startsWith p (c :: s) || isSub p s) = true := h
    rw [Bool.or_eq_true] at h' ⊢
    cases h' with
    | inl h1 => exact Or.inl (startsWith_extend p (c :: s) t h1)
    | inr h2 => exact Or.inr (ih h2)

-- Content strictly longer than 500 characters is reduced to exactly
-- 200 + 28 + 200 = 428 characters by the ingest summarizer.
theorem create_summary_for_content_length_of_long (c : List Char)
    (h : 500 < c.length) :
    (create_summary_for_content c).length = 428 := by
  have hN : summarizedNotice.length = 28 := by decide
  unfold create_summary_for_content pySliceLast
  rw [if_neg (by omega), if_neg (by omega)]
  rw [List.length_append, List.length_append, List.length_take,
    List.length_drop, hN]
  omega

-- With a content limit of at least 500, the ingest step returns a
-- message whose payload respects the limit (for the three roles the
-- `isinstance` chain rebuilds; `other` messages pass through untouched).
theorem processIncoming_length_le (st : ConversationManager) (m : Msg)
    (h500 : 500 ≤ st.max_content_length) (hrole : m.role ≠ Role.other) :
    (processIncoming st m).content.length ≤ st.max_content_length := by
  obtain ⟨r, c, n⟩ := m
  unfold processIncoming
  split
  · next hlong =>
    simp only at hlong
    have hlen := create_summary_for_content_length_of_long c (by omega)
    cases r with
    | system =>
      show (create_summary_for_content c).length ≤ _
      omega
    | human =>
      show (create_summary_for_content c).length ≤ _
      omega
    | ai =>
      show (create_summary_for_content c).length ≤ _
      omega
    | other => exact absurd rfl hrole
  · next hshort =>
    simp only at hshort
    show c.length ≤ _
    omega

/-- C2 counterexample: with a non-null, non-empty prior summary "S" and a
folded portion consisting only of a System message, the fold does not set
the summary to `None`: the prior summary survives as a
"Previous conversation summary: " line. -/
theorem C2_counterexample :
    (create_summary ⟨30, 900000, 1,
        [⟨Role.system, pys "setup", none⟩, ⟨Role.human, pys "z", none⟩],
        some (pys "S")⟩).summary ≠ none := by decide

/-- C2 (amended): when the prior summary is falsy — `None`, or the empty
string, which is non-null yet skipped by the truthiness test — and the
folded portion holds only System messages, the fold sets the summary to
`None`. -/
theorem C2_amended_fold_nulls_falsy_summary (st : ConversationManager)
    (hsum : truthyOpt st.summary = false)
    (hlen : st.preserve_recent < st.messages.length)
    (hsys : ∀ x ∈ pySliceInit st.preserve_recent st.messages,
      x.role = Role.system) :
    (create_summary st).summary = none := by
  unfold create_summary
  rw [if_neg (by omega)]
  have hL : summaryLines (pySliceInit st.preserve_recent st.messages) = [] := by
    unfold summaryLines
    rw [List.filterMap_eq_nil_iff]
    intro a ha
    have hr := hsys a ha
    obtain ⟨r, c, n⟩ := a
    simp only [Msg.role] at hr
    subst hr
    rfl
  simp [hsum, hL]

/-- C2 witness: an empty-string summary (falsy yet non-null) plus an
all-System folded portion is indeed nulled out by the fold. -/
theorem C2_amended_fold_nulls_falsy_summary_witness :
    (create_summary ⟨30, 900000, 1,
        [⟨Role.system, pys "setup", none⟩, ⟨Role.human, pys "z", none⟩],
        some []⟩).summary = none :=
  C2_amended_fold_nulls_falsy_summary _ (by decide) (by decide) (by decide)

set_option maxRecDepth 4000 in
/-- C3: a manager with `max_content_length = 100` stores a Human message
of 200 'X' characters completely unchanged — the payload keeps length 200
and contains no "Content summarized" marker, because
`_create_summary_for_content` returns any content of length ≤ 500 as is.
This contradicts the spec's Scenario C and the repository's own test
`test_add_long_message_truncated`. -/
theorem C3_code_behavior :
    (add_message ⟨30, 100, 5, [], none⟩
        ⟨Role.human, List.replicate 200 'X', none⟩).messages
      = [⟨Role.human, List.replicate 200 'X', none⟩] ∧
    isSub (pys "Content summarized") (List.replicate 200 'X') = false := by
  decide

/-- C5: Scenario A — after adding "Message 0" … "Message 4" to a manager
with `max_messages = 3` and `preserve_recent = 2`, exactly the messages
"Message 3" and "Message 4" remain, the summary is non-null, and it
contains "User: Message 0", "User: Message 1" and "User: Message 2". -/
theorem C5_scenario_a :
    scenarioAState.messages =
      [⟨Role.human, pys "Message 3", none⟩,
       ⟨Role.human, pys "Message 4", none⟩] ∧
    scenarioAState.summary ≠ none ∧
    isSub (pys "User: Message 0") (scenarioAState.summary.getD []) = true ∧
    isSub (pys "User: Message 1") (scenarioAState.summary.getD []) = true ∧
    isSub (pys "User: Message 2") (scenarioAState.summary.getD []) = true := by
  decide

/-- C6 counterexample: at `max_length = 0` the claim predicts the result
"first 0 characters ++ marker ++ last 0 characters", i.e. the bare marker
line; the code instead appends the whole string after the marker, because
Python's `content[-0:]` is the entire string. -/
theorem C6_counterexample :
    truncate_content (pys "X") 0 = truncationNotice ++ pys "X" ∧
    truncate_content (pys "X") 0 ≠ truncationNotice := by decide

/-- C6 (amended): `truncate_content` returns `s` unchanged whenever
`len(s) ≤ max_length`; when `len(s) > max_length` and `max_length ≥ 2`
the result is the first `max_length / 2` characters, the marker line, and
the last `max_length / 2` characters; when `len(s) > max_length` and
`max_length < 2` the half-length is 0 and Python's `s[-0:]` makes the
result the marker followed by all of `s`.  (The converse of the first
part fails for strings that embed the marker, so only this direction is
asserted.) -/
theorem C6_amended_truncate (s : List Char) (max_length : Nat) :
    (s.length ≤ max_length → truncate_content s max_length = s) ∧
    (max_length < s.length → 2 ≤ max_length →
      truncate_content s max_length =
        s.take (max_length / 2) ++ truncationNotice ++
          s.drop (s.length - max_length / 2)) ∧
    (max_length < s.length → max_length < 2 →
      truncate_content s max_length = truncationNotice ++ s) := by
  refine ⟨fun h => ?_, fun h h2 => ?_, fun h h2 => ?_⟩
  · unfold truncate_content
    rw [if_pos h]
  · unfold truncate_content pySliceLast
    rw [if_neg (by omega), if_neg (by omega)]
  · unfold truncate_content pySliceLast
    have h0 : max_length / 2 = 0 := by omega
    rw [if_neg (by omega), if_pos h0, h0]
    simp

/-- C6 witness: the three regimes of the amended statement at concrete
inputs. -/
theorem C6_amended_truncate_witness :
    truncate_content (pys "ab") 5 = pys "ab" ∧
    truncate_content (pys "abcdef") 4 =
      (pys "abcdef").take (4 / 2) ++ truncationNotice ++
        (pys "abcdef").drop ((pys "abcdef").length - 4 / 2) ∧
    truncate_content (pys "ab") 1 = truncationNotice ++ pys "ab" :=
  ⟨(C6_amended_truncate (pys "ab") 5).1 (by decide),
   (C6_amended_truncate (pys "abcdef") 4).2.1 (by decide) (by decide),
   (C6_amended_truncate (pys "ab") 1).2.2 (by decide) (by decide)⟩

/-- C8: folding an Assistant message that carries no display name
produces the line "None: hi", not "Assistant: hi": langchain messages
always have a `name` attribute (default `None`), so the fallback in
`getattr(msg, 'name', 'Assistant')` never fires and the f-string renders
`None` as "None".  The claim (and the `'Assistant'` literal in the code)
state the intended behavior; the code diverges. -/
theorem C8_code_behavior :
    (create_summary ⟨30, 900000, 1,
        [⟨Role.ai, pys "hi", none⟩, ⟨Role.human, pys "z", none⟩],
        none⟩).summary = some (pys "None: hi") ∧
    startsWith (pys "Assistant: ") (pys "None: hi") = false := by decide

/-- C4: for a positive `preserve_recent`, `add_message` leaves at most
`preserve_recent` messages in the buffer — the final fold check makes
this a hard postcondition, with no transient excess visible after
return. -/
theorem C4_add_message_bounds_buffer (st : ConversationManager) (m : Msg)
    (hp : 1 ≤ st.preserve_recent) :
    (add_message st m).messages.length ≤ st.preserve_recent := by
  have key : ∀ s2 : ConversationManager,
      s2.preserve_recent = st.preserve_recent →
      (if s2.preserve_recent < s2.messages.length then create_summary s2
        else s2).messages.length ≤ st.preserve_recent := by
    intro s2 hs
    split
    · next h =>
      have hb := create_summary_length_le s2 (by omega)
      omega
    · next h => omega
  exact key
    { (if st.max_messages ≤ st.messages.length then create_summary st
        else st) with
      messages :=
        (if st.max_messages ≤ st.messages.length then create_summary st
          else st).messages ++ [processIncoming st m] }
    (by
      show (if st.max_messages ≤ st.messages.length then create_summary st
        else st).preserve_recent = st.preserve_recent
      split
      · exact create_summary_preserve_recent_eq st
      · rfl)

/-- C4 witness: a fresh manager with `preserve_recent = 2` satisfies the
postcondition after one `add_message`. -/
theorem C4_add_message_bounds_buffer_witness :
    1 ≤ (2 : Nat) ∧
    (add_message ⟨3, 900000, 2, [], none⟩
        ⟨Role.human, pys "hi", none⟩).messages.length ≤ 2 :=
  ⟨by decide,
   C4_add_message_bounds_buffer ⟨3, 900000, 2, [], none⟩
     ⟨Role.human, pys "hi", none⟩ (by decide)⟩

/-- C7: the ingest summarizer returns content of length at most 500
unchanged; longer content yields a result that starts with the first 200
characters, ends with the last 200 characters, and contains the
"Content summarized" marker.  The method reads no instance attribute, so
the embedded function does not depend on `max_content_length` at all. -/
theorem C7_ingest_summarization (s : List Char) :
    (s.length ≤ 500 → create_summary_for_content s = s) ∧
    (500 < s.length →
      startsWith (s.take 200) (create_summary_for_content s) = true ∧
      endsWith (s.drop (s.length - 200)) (create_summary_for_content s) = true ∧
      isSub (pys "Content summarized") (create_summary_for_content s) = true) := by
  constructor
  · intro h
    unfold create_summary_for_content
    rw [if_pos h]
  · intro h
    have hval : create_summary_for_content s =
        s.take 200 ++ summarizedNotice ++ s.drop (s.length - 200) := by
      unfold create_summary_for_content pySliceLast
      rw [if_neg (by omega), if_neg (by omega)]
    refine ⟨?_, ?_, ?_⟩
    · rw [hval, List.append_assoc]
      exact startsWith_self_append _ _
    · rw [hval]
      exact endsWith_self_append _ _
    · rw [hval, List.append_assoc]
      apply isSub_append_left
      apply isSub_append_right
      decide

/-- C7 witness: the short regime at "hi" and the long regime at 501
repetitions of 'X'. -/
theorem C7_ingest_summarization_witness :
    create_summary_for_content (pys "hi") = pys "hi" ∧
    (startsWith ((List.replicate 501 'X').take 200)
        (create_summary_for_content (List.replicate 501 'X')) = true ∧
      endsWith ((List.replicate 501 'X').drop
          ((List.replicate 501 'X').length - 200))
        (create_summary_for_content (List.replicate 501 'X')) = true ∧
      isSub (pys "Content summarized")
        (create_summary_for_content (List.replicate 501 'X')) = true) :=
  ⟨(C7_ingest_summarization (pys "hi")).1 (by decide),
   (C7_ingest_summarization (List.replicate 501 'X')).2 (by norm_num)⟩

/-- C9: `get_messages` (either mode) and `get_conversation_stats` are
pure reads: each returns the pre-state unchanged, and a second call on
the resulting state returns the same value. -/
theorem C9_accessors_pure (st : ConversationManager) (mode : Bool) :
    (get_messages st mode).2 = st ∧
    (get_messages (get_messages st mode).2 mode).1 =
      (get_messages st mode).1 ∧
    (get_conversation_stats st).2 = st ∧
    (get_conversation_stats (get_conversation_stats st).2).1 =
      (get_conversation_stats st).1 := by
  have h1 : (get_messages st mode).2 = st := by
    unfold get_messages
    split <;> rfl
  exact ⟨h1, by rw [h1], rfl, rfl⟩

set_option maxRecDepth 4000 in
/-- C1 counterexample: with `max_content_length = 100`, adding a Human
message of 200 'X' characters leaves a stored message of length 200,
violating the claimed per-message bound — `_create_summary_for_content`
returns any content of length at most 500 unchanged, so the enforcement
only works when the limit is at least 500. -/
theorem C1_counterexample :
    ¬ ∀ x ∈ (add_message ⟨30, 100, 5, [], none⟩
        ⟨Role.human, List.replicate 200 'X', none⟩).messages,
      x.content.length ≤ 100 := by decide

/-- C1 (amended): for a manager whose `max_content_length` is at least
500, whose stored messages all respect the bound, and an incoming
System-, Human- or Assistant-variant message, every message stored after
`add_message` has payload length at most `max_content_length` (the bound
is enforced at add time for the incoming message; folds only keep
already-bounded messages). -/
theorem C1_amended_content_bound (st : ConversationManager) (m : Msg)
    (h500 : 500 ≤ st.max_content_length) (hrole : m.role ≠ Role.other)
    (hpre : ∀ x ∈ st.messages, x.content.length ≤ st.max_content_length) :
    ∀ x ∈ (add_message st m).messages,
      x.content.length ≤ st.max_content_length := by
  intro x hx
  have hm := processIncoming_length_le st m h500 hrole
  have key : ∀ s2 : ConversationManager,
      (∀ y ∈ s2.messages, y.content.length ≤ st.max_content_length) →
      ∀ y ∈ (if s2.preserve_recent < s2.messages.length then
          create_summary s2 else s2).messages,
        y.content.length ≤ st.max_content_length := by
    intro s2 hs y hy
    split at hy
    · exact hs y (mem_create_summary hy)
    · exact hs y hy
  have hst1 : ∀ y ∈ (if st.max_messages ≤ st.messages.length then
      create_summary st else st).messages,
      y.content.length ≤ st.max_content_length := by
    intro y hy
    split at hy
    · exact hpre y (mem_create_summary hy)
    · exact hpre y hy
  refine key
    { (if st.max_messages ≤ st.messages.length then create_summary st
        else st) with
      messages :=
        (if st.max_messages ≤ st.messages.length then create_summary st
          else st).messages ++ [processIncoming st m] } ?_ x hx
  intro y hy
  have hy' : y ∈ (if st.max_messages ≤ st.messages.length then
      create_summary st else st).messages ++ [processIncoming st m] := hy
  rcases List.mem_append.1 hy' with h1 | h1
  · exact hst1 y h1
  · rw [List.mem_singleton] at h1
    subst h1
    exact hm

set_option maxRecDepth 4000 in
/-- C1 witness: with limit exactly 500, a bounded pre-state and an
oversized Human message, the bound holds after `add_message`. -/
theorem C1_amended_content_bound_witness :
    ((add_message ⟨30, 500, 5, [⟨Role.human, pys "old", none⟩], none⟩
        ⟨Role.human, List.replicate 600 'X', none⟩).messages.all
      fun x => decide (x.content.length ≤ 500)) = true := by
  have h := C1_amended_content_bound
    ⟨30, 500, 5, [⟨Role.human, pys "old", none⟩], none⟩
    ⟨Role.human, List.replicate 600 'X', none⟩
    (by decide) (by decide) (by decide)
  rw [List.all_eq_true]
  intro x hx
  exact decide_eq_true (h x hx)

/-- C10: a message whose variant is none of System, Human, Assistant
(role `other`) sitting in the folded portion is removed by the fold and
contributes no summary line: folding a buffer `a ++ m :: b` with such an
`m` in the folded region ends in exactly the same state as folding
`a ++ b`. -/
theorem C10_other_messages_discarded (a b : List Msg) (m : Msg)
    (mm mc p : Nat) (sm : Option (List Char))
    (hrole : m.role = Role.other) (hp : 1 ≤ p) (hb : p ≤ b.length)
    (hfold : p < a.length + b.length) :
    create_summary ⟨mm, mc, p, a ++ m :: b, sm⟩ =
      create_summary ⟨mm, mc, p, a ++ b, sm⟩ := by
  have hlm : lineOf m = none := by
    obtain ⟨r, c, n⟩ := m
    simp only [Msg.role] at hrole
    subst hrole
    rfl
  have hdrop : pySliceLast p (a ++ m :: b) = pySliceLast p (a ++ b) := by
    unfold pySliceLast
    rw [if_neg (by omega), if_neg (by omega)]
    rw [List.length_append, List.length_append, List.length_cons]
    rw [show a.length + (b.length + 1) - p = a.length + (b.length + 1 - p) from
      by omega, List.drop_append]
    rw [show a.length + b.length - p = a.length + (b.length - p) from
      by omega, List.drop_append]
    rw [show b.length + 1 - p = (b.length - p) + 1 from by omega]
    rfl
  have htake : summaryLines (pySliceInit p (a ++ m :: b)) =
      summaryLines (pySliceInit p (a ++ b)) := by
    unfold pySliceInit
    rw [if_neg (by omega), if_neg (by omega)]
    rw [List.length_append, List.length_append, List.length_cons]
    rw [show a.length + (b.length + 1) - p = a.length + (b.length + 1 - p) from
      by omega, List.take_append]
    rw [show a.length + b.length - p = a.length + (b.length - p) from
      by omega, List.take_append]
    rw [show b.length + 1 - p = (b.length - p) + 1 from by omega]
    rw [show (m :: b).take ((b.length - p) + 1) = m :: b.take (b.length - p) from
      rfl]
    unfold summaryLines
    rw [List.filterMap_append, List.filterMap_append, List.filterMap_cons, hlm]
  have h1 : ¬((a ++ m :: b).length ≤ p) := by
    rw [List.length_append, List.length_cons]
    omega
  have h2 : ¬((a ++ b).length ≤ p) := by
    rw [List.length_append]
    omega
  unfold create_summary
  rw [if_neg h1, if_neg h2]
  simp only [htake, hdrop]

/-- C10 witness: folding `[Human "q", other "t", Human "z"]` with
`preserve_recent = 1` gives the same state as folding
`[Human "q", Human "z"]`. -/
theorem C10_other_messages_discarded_witness :
    create_summary ⟨30, 900000, 1,
        [⟨Role.human, pys "q", none⟩] ++ ⟨Role.other, pys "t", none⟩ ::
          [⟨Role.human, pys "z", none⟩], none⟩ =
      create_summary ⟨30, 900000, 1,
        [⟨Role.human, pys "q", none⟩] ++ [⟨Role.human, pys "z", none⟩],
        none⟩ :=
  C10_other_messages_discarded
    [⟨Role.human, pys "q", none⟩] [⟨Role.human, pys "z", none⟩]
    ⟨Role.other, pys "t", none⟩ 30 900000 1 none
    rfl (by decide) (by decide) (by decide)

end ConvMgr
